import Mathlib

/- Formal model of the real-time actor simulation of a stalking-horror game:
   player locomotion and obstacle collision resolution, monster pursuit state
   machine, and the session orchestrator's battery regulation and catch
   handling.  JavaScript floating-point arithmetic is idealised over the real
   numbers; the one place where the source can produce NaN (division by a
   zero distance in the obstacle collision loop) is modelled with Option,
   where none stands for a NaN-poisoned result. -/

namespace Slendy

/-- Three-dimensional vector, mirroring THREE.Vector3. -/
structure Vec3 where
  x : ℝ
  y : ℝ
  z : ℝ

/-- Componentwise subtraction a minus b, mirroring THREE.Vector3.subVectors. -/
def vsub (a b : Vec3) : Vec3 := ⟨a.x - b.x, a.y - b.y, a.z - b.z⟩

/-- Euclidean distance, mirroring THREE.Vector3.distanceTo. -/
noncomputable def dist3 (a b : Vec3) : ℝ :=
  Real.sqrt ((a.x - b.x) ^ 2 + (a.y - b.y) ^ 2 + (a.z - b.z) ^ 2)

/-- Horizontal distance between two points, ignoring the y coordinate. -/
noncomputable def horizDist (a b : Vec3) : ℝ :=
  Real.sqrt ((a.x - b.x) ^ 2 + (a.z - b.z) ^ 2)

/-- THREE.Vector3.normalize divides each component by the vector length
    unless the length is zero (three.js divides by length or, when the
    length is falsy, by one), so the zero vector is returned unchanged. -/
noncomputable def tjNormalize (v : Vec3) : Vec3 :=
  let len := Real.sqrt (v.x ^ 2 + v.y ^ 2 + v.z ^ 2)
  if len = 0 then v else ⟨v.x / len, v.y / len, v.z / len⟩

/-- THREE.MathUtils.clamp value lo hi, which is max lo (min hi value). -/
noncomputable def clamp (v lo hi : ℝ) : ℝ := max lo (min hi v)

/-- THREE.MathUtils.lerp. -/
def lerp (a b t : ℝ) : ℝ := a + (b - a) * t

/-- Math.atan2 modelled through the complex argument of x plus i y. -/
noncomputable def atan2 (y x : ℝ) : ℝ := Complex.arg ⟨x, y⟩

/-- Yaw produced by Object3D.lookAt from a position toward a target that is
    taken at the same height, as in the jumpscare branch of the monster. -/
noncomputable def lookAtYaw (pos target : Vec3) : ℝ :=
  atan2 (target.x - pos.x) (target.z - pos.z)

/-- Circular collision obstacle; positions in the source are [x, 0, z]. -/
structure Obstacle where
  px : ℝ
  pz : ℝ
  radius : ℝ

noncomputable def WALK_SPEED : ℝ := 5
noncomputable def SPRINT_SPEED : ℝ := 9
noncomputable def JUMP_FORCE : ℝ := 8.5
noncomputable def GRAVITY : ℝ := 22
noncomputable def GROUND_Y : ℝ := 1.7
noncomputable def WORLD_BOUNDARY : ℝ := 98.5
noncomputable def PLAYER_RADIUS : ℝ := 0.6
noncomputable def FOOTSTEP_INTERVAL_WALK : ℝ := 0.42
noncomputable def FOOTSTEP_INTERVAL_SPRINT : ℝ := 0.28
noncomputable def WIN_ZONE_POSITION : Vec3 := ⟨0, 0, -40⟩
noncomputable def WIN_DISTANCE : ℝ := 5

/-- One step of the player obstacle collision loop.  Given the candidate
    planar position and one obstacle it pushes the position out of the
    obstacle along the displacement vector.  The source computes
    dx / dist and dz / dist without any zero test, so when the candidate
    position coincides with the obstacle centre the JavaScript division
    zero over zero yields NaN; that outcome is modelled as none. -/
noncomputable def collideStep (p : ℝ × ℝ) (obs : Obstacle) : Option (ℝ × ℝ) :=
  let dx := p.1 - obs.px
  let dz := p.2 - obs.pz
  let distSq := dx * dx + dz * dz
  let combRad := PLAYER_RADIUS + obs.radius
  if distSq < combRad * combRad then
    if distSq = 0 then none
    else
      let dist := Real.sqrt distSq
      let overlap := combRad - dist
      some (p.1 + dx / dist * overlap, p.2 + dz / dist * overlap)
  else some p

/-- Single sequential pass over the obstacle list, in list order, exactly
    as the for loop of the player update. -/
noncomputable def collidePass (obstacles : List Obstacle) (p : ℝ × ℝ) : Option (ℝ × ℝ) :=
  List.foldlM collideStep p obstacles

/-- Horizontal distance from a planar position to an obstacle centre. -/
noncomputable def obstacleDist (p : ℝ × ℝ) (obs : Obstacle) : ℝ :=
  Real.sqrt ((p.1 - obs.px) ^ 2 + (p.2 - obs.pz) ^ 2)

/-- Per-axis world boundary commit: each horizontal axis takes the candidate
    value only when its absolute value is below the boundary, otherwise it
    holds the previous value; the vertical coordinate is always committed. -/
noncomputable def boundsCommit (prev : Vec3) (nx nz ny : ℝ) : Vec3 :=
  { x := if |nx| < WORLD_BOUNDARY then nx else prev.x,
    y := ny,
    z := if |nz| < WORLD_BOUNDARY then nz else prev.z }

/-- Directional key state of the player. -/
structure MoveInput where
  forward : Bool
  backward : Bool
  left : Bool
  right : Bool
  sprint : Bool

/-- Inputs supplied to one player tick. -/
structure PlayerInput where
  active : Bool
  isScaring : Bool
  mv : MoveInput
  yaw : ℝ
  delta : ℝ
  soundVolume : ℝ
  canWin : Bool
  obstacles : List Obstacle

/-- Mutable per-session player state threaded through the ticks. -/
structure PlayerState where
  pos : Vec3
  vel : Vec3
  verticalVelocity : ℝ
  grounded : Bool
  footstepTimer : ℝ

/-- Result of one player tick: the new state plus the emitted signals. -/
structure PlayerTickOutput where
  state : PlayerState
  footstep : Option ℝ
  won : Prop

/-- One frame of the player update.  Mirrors the useFrame body: early exit
    when inactive or a jumpscare is in progress (velocity forced to zero,
    everything else untouched), otherwise input direction, velocity blend,
    vertical physics with ground clamp, the sequential obstacle collision
    pass, the per-axis world boundary commit, the win check and the
    footstep timer. -/
noncomputable def playerTick (i : PlayerInput) (s : PlayerState) : Option PlayerTickOutput :=
  if !i.active || i.isScaring then
    some { state := { s with vel := ⟨0, 0, 0⟩ }, footstep := none, won := False }
  else
    let isMoving := i.mv.forward || i.mv.backward || i.mv.left || i.mv.right
    let isSprinting := isMoving && i.mv.sprint
    let currentSpeed := if isSprinting then SPRINT_SPEED else WALK_SPEED
    let front : Vec3 := ⟨0, 0, (if i.mv.backward then (1 : ℝ) else 0) - (if i.mv.forward then (1 : ℝ) else 0)⟩
    let side : Vec3 := ⟨(if i.mv.left then (1 : ℝ) else 0) - (if i.mv.right then (1 : ℝ) else 0), 0, 0⟩
    let d0 := tjNormalize (vsub front side)
    let dir : Vec3 :=
      ⟨(d0.x * currentSpeed) * Real.cos i.yaw + (d0.z * currentSpeed) * Real.sin i.yaw,
       d0.y * currentSpeed,
       -(d0.x * currentSpeed) * Real.sin i.yaw + (d0.z * currentSpeed) * Real.cos i.yaw⟩
    let vel' : Vec3 := ⟨lerp s.vel.x dir.x 0.15, lerp s.vel.y dir.y 0.15, lerp s.vel.z dir.z 0.15⟩
    let nextX := s.pos.x + vel'.x * i.delta
    let nextZ := s.pos.z + vel'.z * i.delta
    let vv0 := if s.grounded then s.verticalVelocity else s.verticalVelocity - GRAVITY * i.delta
    let nextY0 := s.pos.y + vv0 * i.delta
    let nextY := if nextY0 ≤ GROUND_Y then GROUND_Y else nextY0
    let vv1 := if nextY0 ≤ GROUND_Y then 0 else vv0
    let grounded' := if nextY0 ≤ GROUND_Y then true else s.grounded
    Option.map
      (fun c =>
        let pos' := boundsCommit s.pos c.1 c.2 nextY
        let won := i.canWin = true ∧ dist3 pos' WIN_ZONE_POSITION < WIN_DISTANCE
        let stepDue := s.footstepTimer + i.delta
        let interval := if isSprinting then FOOTSTEP_INTERVAL_SPRINT else FOOTSTEP_INTERVAL_WALK
        let timer' := if isMoving && grounded' then (if stepDue ≥ interval then 0 else stepDue) else s.footstepTimer
        let fs := if isMoving && grounded' then
                    (if stepDue ≥ interval then some (i.soundVolume * (if isSprinting then (0.7 : ℝ) else 0.4)) else none)
                  else none
        { state := { pos := pos', vel := vel', verticalVelocity := vv1,
                     grounded := grounded', footstepTimer := timer' },
          footstep := fs, won := won })
      (collidePass i.obstacles (nextX, nextZ))

/-- Session trace of player ticks driven by a list of per-tick inputs. -/
noncomputable def playerRun (inputs : List PlayerInput) (s : PlayerState) : Option PlayerState :=
  List.foldlM (fun st i => Option.map (fun o => o.state) (playerTick i st)) s inputs

/-- Horizontal world-bounds invariant of the player position. -/
def inBounds (p : Vec3) : Prop := |p.x| < WORLD_BOUNDARY ∧ |p.z| < WORLD_BOUNDARY

noncomputable def FOOTSTEP_INTERVAL_BASE : ℝ := 0.55
noncomputable def MAX_AUDIBLE_DISTANCE : ℝ := 45
noncomputable def BASE_SPEED : ℝ := 4.6
noncomputable def CHASE_SPEED : ℝ := 6.8
noncomputable def ATTACK_RANGE : ℝ := 14

/-- Mutable monster state threaded through the ticks. -/
structure MonsterState where
  pos : Vec3
  rotY : ℝ
  footstepTimer : ℝ
  hasTeleported : Bool

/-- Inputs supplied to one monster tick; forward is the unit vector
    obtained in the source by rotating the minus z axis by the player
    camera quaternion. -/
structure MonsterInput where
  active : Bool
  isScaring : Bool
  playerPos : Vec3
  forward : Vec3
  delta : ℝ
  soundVolume : ℝ

/-- Result of one monster tick: the new state plus the emitted signals. -/
structure MonsterOutput where
  state : MonsterState
  caught : Prop
  danger : Option ℝ
  footstepVolume : Option ℝ

/-- Danger level published each pursuing tick. -/
noncomputable def dangerLevel (dist : ℝ) : ℝ := clamp (1 - dist / 35) 0 1

/-- Speed tier of the monster: chase speed below the attack range,
    base speed otherwise. -/
noncomputable def speedOf (dist : ℝ) : ℝ :=
  if dist < ATTACK_RANGE then CHASE_SPEED else BASE_SPEED

/-- One frame of the monster update.  Mirrors the useFrame body: early
    return when inactive; jumpscare branch with the one-shot teleport in
    front of the player and the facing update; otherwise the pursuit step
    with the distance-gated speed tier, normalized direction applied on the
    horizontal axes, footstep timer, danger publication and catch test. -/
noncomputable def monsterTick (i : MonsterInput) (s : MonsterState) : MonsterOutput :=
  if !i.active then
    { state := s, caught := False, danger := none, footstepVolume := none }
  else if i.isScaring then
    let s1 := if s.hasTeleported then s
              else { s with
                       pos := ⟨i.playerPos.x + i.forward.x * 1.2,
                              i.playerPos.y - 1.2,
                              i.playerPos.z + i.forward.z * 1.2⟩,
                       hasTeleported := true }
    { state := { s1 with rotY := lookAtYaw s1.pos i.playerPos },
      caught := False, danger := none, footstepVolume := none }
  else
    let dist := dist3 s.pos i.playerPos
    let currentSpeed := speedOf dist
    let direction := tjNormalize (vsub i.playerPos s.pos)
    let pos' : Vec3 := ⟨s.pos.x + direction.x * currentSpeed * i.delta,
                        s.pos.y,
                        s.pos.z + direction.z * currentSpeed * i.delta⟩
    let rotY' := lerp s.rotY (atan2 direction.x direction.z) 0.1
    let stepInterval := FOOTSTEP_INTERVAL_BASE * (BASE_SPEED / currentSpeed)
    let t := s.footstepTimer + i.delta
    let timer' := if t ≥ stepInterval then 0 else t
    let fs := if t ≥ stepInterval then
                (if dist < MAX_AUDIBLE_DISTANCE then
                   some (i.soundVolume * (1 - dist / MAX_AUDIBLE_DISTANCE) * 0.8)
                 else none)
              else none
    { state := { pos := pos', rotY := rotY', footstepTimer := timer',
                 hasTeleported := s.hasTeleported },
      caught := dist < 1.9,
      danger := some (dangerLevel dist),
      footstepVolume := fs }

/-- Effect run when the active flag changes: the already-teleported flag is
    cleared exactly when the monster leaves the active phase. -/
def monsterOnActiveChange (active : Bool) (s : MonsterState) : MonsterState :=
  if !active then { s with hasTeleported := false } else s

/-- Game phases of the session orchestrator. -/
inductive GameState where
  | START
  | PLAYING
  | GAMEOVER
  | WIN
deriving DecidableEq

/-- Orchestrator state relevant to catch handling; the two counters record
    how many times the jumpscare audio was started and how many GameOver
    transitions were scheduled. -/
structure AppState where
  gameState : GameState
  isScaring : Bool
  jumpscareAudioStarts : ℕ
  gameOverScheduled : ℕ
deriving DecidableEq

/-- The catch handler of the orchestrator: only when the phase is Playing
    and no jumpscare is in progress does it enter the jumpscare, start the
    jumpscare audio and schedule the GameOver transition. -/
def handleCatch (s : AppState) : AppState :=
  if s.gameState = GameState.PLAYING ∧ s.isScaring = false then
    { s with isScaring := true,
             jumpscareAudioStarts := s.jumpscareAudioStarts + 1,
             gameOverScheduled := s.gameOverScheduled + 1 }
  else s

def BATTERY_DRAIN_RATE : ℚ := 0.8
def BATTERY_RECHARGE_RATE : ℚ := 0.4

/-- Body of the 100 millisecond battery regulation interval that runs while
    the phase is Playing: drain clamped at zero while the light is on, with
    the light forced off when the battery reaches exactly zero, recharge
    clamped at one hundred otherwise. -/
def batteryStep : ℚ × Bool → ℚ × Bool := fun s =>
  let battery := s.1
  let flashlightOn := s.2
  if flashlightOn then
    let next := max 0 (battery - BATTERY_DRAIN_RATE * 0.1)
    (next, if next = 0 then false else flashlightOn)
  else
    (min 100 (battery + BATTERY_RECHARGE_RATE * 0.1), flashlightOn)

/-- Iterated battery regulation over n ticks of the 100 millisecond cadence. -/
def batteryRun (n : ℕ) (s : ℚ × Bool) : ℚ × Bool := batteryStep^[n] s

/-- Square roots of perfect rational squares, used to evaluate the model on
    concrete inputs. -/
lemma sqrt_eval {a b : ℝ} (hb : 0 ≤ b) (h : a = b ^ 2) : Real.sqrt a = b := by
  rw [h, Real.sqrt_sq hb]

/-- Both speed tiers of the monster are positive. -/
lemma speedOf_pos (d : ℝ) : 0 < speedOf d := by
  unfold speedOf CHASE_SPEED BASE_SPEED
  split_ifs <;> norm_num

/-- Claim C4: during a tick in which the monster is active and not
    jumpscaring, the caught event is emitted exactly when the distance from
    monster to player is strictly below 1.9, and it is never emitted on a
    tick in which the monster is inactive or a jumpscare is in progress. -/
theorem C4_caught_iff (i : MonsterInput) (s : MonsterState) :
    (monsterTick i s).caught ↔
      i.active = true ∧ i.isScaring = false ∧ dist3 s.pos i.playerPos < 1.9 := by
  unfold monsterTick
  cases hA : i.active <;> cases hS : i.isScaring <;> simp [hA, hS]

/-- Claim C10: the catch handler enters the jumpscare, starts the jumpscare
    audio and schedules the GameOver transition only from the Playing phase
    with no jumpscare in progress; it ignores the signal otherwise, and any
    positive number of repeated per-tick catch calls has exactly the effect
    of a single call. -/
theorem C10_catch_once :
    (∀ s : AppState, ¬(s.gameState = GameState.PLAYING ∧ s.isScaring = false) →
        handleCatch s = s) ∧
    (∀ s : AppState, s.gameState = GameState.PLAYING → s.isScaring = false →
        (handleCatch s).isScaring = true ∧
        (handleCatch s).jumpscareAudioStarts = s.jumpscareAudioStarts + 1 ∧
        (handleCatch s).gameOverScheduled = s.gameOverScheduled + 1) ∧
    (∀ (s : AppState) (n : ℕ), 1 ≤ n → handleCatch^[n] s = handleCatch s) := by
  have hIdem : ∀ s : AppState, handleCatch (handleCatch s) = handleCatch s := by
    intro s
    unfold handleCatch
    by_cases h : s.gameState = GameState.PLAYING ∧ s.isScaring = false
    · rw [if_pos h]; simp
    · rw [if_neg h, if_neg h]
  refine ⟨?_, ?_, ?_⟩
  · intro s h
    unfold handleCatch
    rw [if_neg h]
  · intro s h1 h2
    unfold handleCatch
    rw [if_pos ⟨h1, h2⟩]
    exact ⟨rfl, rfl, rfl⟩
  · intro s n hn
    obtain ⟨m, rfl⟩ := Nat.exists_eq_add_of_le hn
    rw [Nat.add_comm, Function.iterate_add_apply, Function.iterate_one]
    exact Function.iterate_fixed (hIdem s) m

theorem C10_catch_once_witness :
    (handleCatch ⟨GameState.PLAYING, false, 0, 0⟩).isScaring = true ∧
    (handleCatch ⟨GameState.PLAYING, false, 0, 0⟩).jumpscareAudioStarts = 0 + 1 ∧
    (handleCatch ⟨GameState.PLAYING, false, 0, 0⟩).gameOverScheduled = 0 + 1 ∧
    handleCatch^[5] ⟨GameState.GAMEOVER, true, 3, 3⟩ = handleCatch ⟨GameState.GAMEOVER, true, 3, 3⟩ :=
  ⟨(C10_catch_once.2.1 _ rfl rfl).1, (C10_catch_once.2.1 _ rfl rfl).2.1,
   (C10_catch_once.2.1 _ rfl rfl).2.2, C10_catch_once.2.2 _ 5 (by norm_num)⟩

/-- Evaluation of the drain branch of the battery step with the literal
    rates multiplied out. -/
lemma batteryStep_true (b : ℚ) :
    batteryStep (b, true) =
      (max 0 (b - 2 / 25), if max 0 (b - 2 / 25) = 0 then false else true) := by
  simp only [batteryStep]
  norm_num [BATTERY_DRAIN_RATE]

/-- Evaluation of the recharge branch of the battery step with the literal
    rates multiplied out. -/
lemma batteryStep_false (b : ℚ) :
    batteryStep (b, false) = (min 100 (b + 1 / 25), false) := by
  simp only [batteryStep]
  norm_num [BATTERY_RECHARGE_RATE]

/-- Closed form of the battery run from a full battery with the light on:
    neither clamp fires during the first 1250 ticks and the light goes off
    exactly at tick 1250, when the level reaches zero. -/
lemma batteryRun_closed :
    ∀ n : ℕ, n ≤ 1250 →
      batteryRun n (100, true) = (100 - (2 / 25 : ℚ) * n, decide (n < 1250)) := by
  intro n
  induction n with
  | zero =>
      intro _
      norm_num [batteryRun]
  | succ m ih =>
      intro hm
      have hm1 : m ≤ 1250 := Nat.le_of_succ_le hm
      have hmlt : m < 1250 := Nat.lt_of_succ_le hm
      have hstep : batteryRun (m + 1) (100, true) = batteryStep (batteryRun m (100, true)) := by
        unfold batteryRun
        rw [Function.iterate_succ_apply']
      rw [hstep, ih hm1, decide_eq_true hmlt, batteryStep_true]
      have hcast : ((m : ℚ) + 1) ≤ 1250 := by exact_mod_cast hm
      have hnn : (0 : ℚ) ≤ 100 - 2 / 25 * m - 2 / 25 := by nlinarith
      rw [max_eq_right hnn]
      rcases Nat.lt_or_ge (m + 1) 1250 with hc | hc
      · have hcQ : ((m : ℚ) + 1) < 1250 := by exact_mod_cast hc
        have hne : (100 : ℚ) - 2 / 25 * m - 2 / 25 ≠ 0 := by nlinarith
        rw [if_neg hne, decide_eq_true hc, Prod.mk.injEq]
        exact ⟨by push_cast; ring, rfl⟩
      · have hceq : m + 1 = 1250 := le_antisymm hm hc
        have hz : (100 : ℚ) - 2 / 25 * m - 2 / 25 = 0 := by
          have hmq : (m : ℚ) = 1249 := by exact_mod_cast congrArg (fun k => k - 1) hceq
          rw [hmq]; norm_num
        rw [if_pos hz]
        have hnlt : ¬ m + 1 < 1250 := by omega
        rw [decide_eq_false hnlt, Prod.mk.injEq]
        exact ⟨by push_cast; ring, rfl⟩

/-- Claim C8: each 100 millisecond regulation tick drains 0.08 with the
    light on and recharges 0.04 with it off, clamped to the unit battery
    range, forcing the light off exactly when the battery reaches zero;
    from full battery with the light on, ten ticks lose 0.8 with the light
    still on, and tick 1250 reaches zero and auto-disables the light. -/
theorem C8_battery_regulation :
    (∀ (b : ℚ) (l : Bool), 0 ≤ b → b ≤ 100 →
        0 ≤ (batteryStep (b, l)).1 ∧ (batteryStep (b, l)).1 ≤ 100) ∧
    (∀ b : ℚ, 0.08 ≤ b → (batteryStep (b, true)).1 = b - 0.08) ∧
    (∀ b : ℚ, b ≤ 99.96 → (batteryStep (b, false)).1 = b + 0.04) ∧
    (∀ b : ℚ, ((batteryStep (b, true)).2 = false ↔ (batteryStep (b, true)).1 = 0)) ∧
    (∀ b : ℚ, (batteryStep (b, false)).2 = false) ∧
    batteryRun 10 (100, true) = (100 - 0.8, true) ∧
    batteryRun 1250 (100, true) = (0, false) := by
  refine ⟨?_, ?_, ?_, ?_, ?_, ?_, ?_⟩
  · intro b l h0 h100
    unfold batteryStep BATTERY_DRAIN_RATE BATTERY_RECHARGE_RATE
    cases l
    · simp only [if_neg, Bool.false_eq_true, if_false]
      constructor
      · have : (0:ℚ) ≤ b + 0.4 * 0.1 := by linarith
        simp only [le_min_iff]
        constructor <;> linarith
      · exact min_le_left _ _
    · simp only [if_pos]
      constructor
      · exact le_max_left _ _
      · refine max_le (by norm_num) (by linarith)
  · intro b hb
    have hb' : (2 / 25 : ℚ) ≤ b := by
      have h : (2 / 25 : ℚ) = 0.08 := by norm_num
      rw [h]; exact hb
    rw [batteryStep_true]
    show max 0 (b - 2 / 25) = b - 0.08
    rw [max_eq_right (by linarith)]
    norm_num
  · intro b hb
    have hb' : b ≤ (100 : ℚ) - 1 / 25 := by
      have h : (100 : ℚ) - 1 / 25 = 99.96 := by norm_num
      rw [h]; exact hb
    rw [batteryStep_false]
    show min 100 (b + 1 / 25) = b + 0.04
    rw [min_eq_right (by linarith)]
    norm_num
  · intro b
    rw [batteryStep_true]
    by_cases h : max 0 (b - 2 / 25) = 0 <;> simp [h]
  · intro b
    rw [batteryStep_false]
  · rw [batteryRun_closed 10 (by norm_num), Prod.mk.injEq]
    refine ⟨by push_cast; norm_num, by decide⟩
  · rw [batteryRun_closed 1250 (by norm_num), Prod.mk.injEq]
    refine ⟨by push_cast; norm_num, by decide⟩

theorem C8_battery_regulation_witness :
    ((0:ℚ) ≤ 50 ∧ (50:ℚ) ≤ 100 ∧
      0 ≤ (batteryStep (50, true)).1 ∧ (batteryStep (50, true)).1 ≤ 100) ∧
    ((0.08:ℚ) ≤ 50 ∧ (batteryStep (50, true)).1 = 50 - 0.08) ∧
    ((50:ℚ) ≤ 99.96 ∧ (batteryStep (50, false)).1 = 50 + 0.04) :=
  ⟨⟨by norm_num, by norm_num, (C8_battery_regulation.1 50 true (by norm_num) (by norm_num)).1,
      (C8_battery_regulation.1 50 true (by norm_num) (by norm_num)).2⟩,
   ⟨by norm_num, C8_battery_regulation.2.1 50 (by norm_num)⟩,
   ⟨by norm_num, C8_battery_regulation.2.2.1 50 (by norm_num)⟩⟩

/-- Claim C6: the published danger level is clamp of one minus distance
    over 35 to the unit interval: it is what every pursuing tick publishes,
    it is antitone in the distance, always within the unit interval, equal
    to one at distance zero and equal to zero from distance 35 onward. -/
theorem C6_danger_level :
    (∀ (i : MonsterInput) (s : MonsterState), i.active = true → i.isScaring = false →
        (monsterTick i s).danger = some (dangerLevel (dist3 s.pos i.playerPos))) ∧
    (∀ d1 d2 : ℝ, d1 ≤ d2 → dangerLevel d2 ≤ dangerLevel d1) ∧
    (∀ d : ℝ, 0 ≤ dangerLevel d ∧ dangerLevel d ≤ 1) ∧
    dangerLevel 0 = 1 ∧
    (∀ d : ℝ, 35 ≤ d → dangerLevel d = 0) := by
  refine ⟨?_, ?_, ?_, ?_, ?_⟩
  · intro i s hA hS
    simp [monsterTick, hA, hS]
  · intro d1 d2 h
    unfold dangerLevel clamp
    have hdiv : d1 / 35 ≤ d2 / 35 := by linarith
    exact max_le_max le_rfl (min_le_min le_rfl (by linarith))
  · intro d
    unfold dangerLevel clamp
    exact ⟨le_max_left _ _, max_le (by norm_num) (min_le_left _ _)⟩
  · unfold dangerLevel clamp
    norm_num
  · intro d hd
    unfold dangerLevel clamp
    have h1 : (1:ℝ) ≤ d / 35 := (one_le_div (by norm_num : (0:ℝ) < 35)).mpr hd
    rw [min_eq_right (by linarith), max_eq_left (by linarith)]

theorem C6_danger_level_witness :
    (monsterTick ⟨true, false, ⟨0, 1.7, 0⟩, ⟨0, 0, -1⟩, 0.016, 1⟩
        ⟨⟨60, 0, 60⟩, 0, 0, false⟩).danger =
      some (dangerLevel (dist3 ⟨60, 0, 60⟩ ⟨0, 1.7, 0⟩)) ∧
    ((3:ℝ) ≤ 5 ∧ dangerLevel 5 ≤ dangerLevel 3) ∧
    ((35:ℝ) ≤ 40 ∧ dangerLevel 40 = 0) :=
  ⟨C6_danger_level.1 _ _ rfl rfl,
   ⟨by norm_num, C6_danger_level.2.1 3 5 (by norm_num)⟩,
   ⟨by norm_num, C6_danger_level.2.2.2.2 40 (by norm_num)⟩⟩

/-- Claim C5: within one jumpscare episode the teleport happens exactly
    once: on the first active scaring tick with the flag clear the monster
    position becomes the player position plus 1.2 along the player facing
    with the vertical coordinate set to player height minus 1.2 and the flag
    is set, on every later scaring tick the position is held; no tick ever
    clears the flag, which is reset exactly when the actor leaves the
    active phase. -/
theorem C5_jumpscare_teleport_once :
    (∀ (i : MonsterInput) (s : MonsterState), i.active = true → i.isScaring = true →
        (s.hasTeleported = false →
            (monsterTick i s).state.pos =
              ⟨i.playerPos.x + i.forward.x * 1.2, i.playerPos.y - 1.2,
               i.playerPos.z + i.forward.z * 1.2⟩ ∧
            (monsterTick i s).state.hasTeleported = true) ∧
        (s.hasTeleported = true →
            (monsterTick i s).state.pos = s.pos ∧
            (monsterTick i s).state.hasTeleported = true)) ∧
    (∀ (i : MonsterInput) (s : MonsterState), s.hasTeleported = true →
        (monsterTick i s).state.hasTeleported = true) ∧
    (∀ (a : Bool) (s : MonsterState),
        (monsterOnActiveChange a s).hasTeleported = (if a then s.hasTeleported else false)) := by
  refine ⟨?_, ?_, ?_⟩
  · intro i s hA hS
    constructor
    · intro hT
      constructor <;> simp [monsterTick, hA, hS, hT]
    · intro hT
      constructor <;> simp [monsterTick, hA, hS, hT]
  · intro i s hT
    unfold monsterTick
    cases hA : i.active <;> cases hS : i.isScaring <;> simp [hA, hS, hT]
  · intro a s
    unfold monsterOnActiveChange
    cases a <;> simp

theorem C5_jumpscare_teleport_once_witness :
    (monsterTick ⟨true, true, ⟨0, 1.7, 0⟩, ⟨0, 0, -1⟩, 0.016, 1⟩
        ⟨⟨60, 0, 60⟩, 0, 0, false⟩).state.pos = ⟨0, 0.5, -1.2⟩ ∧
    (monsterTick ⟨true, true, ⟨0, 1.7, 0⟩, ⟨0, 0, -1⟩, 0.016, 1⟩
        ⟨⟨60, 0, 60⟩, 0, 0, false⟩).state.hasTeleported = true ∧
    (monsterTick ⟨true, true, ⟨0, 1.7, 0⟩, ⟨0, 0, -1⟩, 0.016, 1⟩
        ⟨⟨0, 0.5, -1.2⟩, 0, 0, true⟩).state.pos = ⟨0, 0.5, -1.2⟩ ∧
    (monsterOnActiveChange false ⟨⟨0, 0.5, -1.2⟩, 0, 0, true⟩).hasTeleported = false := by
  have h1 := (C5_jumpscare_teleport_once.1 ⟨true, true, ⟨0, 1.7, 0⟩, ⟨0, 0, -1⟩, 0.016, 1⟩
      ⟨⟨60, 0, 60⟩, 0, 0, false⟩ rfl rfl).1 rfl
  have h2 := (C5_jumpscare_teleport_once.1 ⟨true, true, ⟨0, 1.7, 0⟩, ⟨0, 0, -1⟩, 0.016, 1⟩
      ⟨⟨0, 0.5, -1.2⟩, 0, 0, true⟩ rfl rfl).2 rfl
  have h3 := C5_jumpscare_teleport_once.2.2 false ⟨⟨0, 0.5, -1.2⟩, 0, 0, true⟩
  refine ⟨h1.1.trans ?_, h1.2, h2.1, h3.trans ?_⟩
  · norm_num
  · norm_num

/-- Claim C9 amended: an inactive or scaring player tick forces the
    velocity to zero and leaves position, vertical velocity, grounded flag
    and footstep timer untouched with no emitted event; an inactive monster
    tick mutates nothing and emits nothing.  A scaring monster tick,
    however, does mutate state, which is what the counterexample shows. -/
theorem C9_early_exit :
    (∀ (i : PlayerInput) (s : PlayerState), i.active = false ∨ i.isScaring = true →
        playerTick i s =
          some ⟨⟨s.pos, ⟨0, 0, 0⟩, s.verticalVelocity, s.grounded, s.footstepTimer⟩,
                none, False⟩) ∧
    (∀ (i : MonsterInput) (s : MonsterState), i.active = false →
        monsterTick i s = ⟨s, False, none, none⟩) := by
  constructor
  · intro i s h
    rcases h with h | h <;> simp [playerTick, h]
  · intro i s h
    simp [monsterTick, h]

theorem C9_early_exit_witness :
    playerTick ⟨false, false, ⟨false, false, false, false, false⟩, 0, 0.016, 1, false, []⟩
        ⟨⟨0, 1.7, 0⟩, ⟨0, 0, 0⟩, 0, true, 0⟩ =
      some ⟨⟨⟨0, 1.7, 0⟩, ⟨0, 0, 0⟩, 0, true, 0⟩, none, False⟩ ∧
    monsterTick ⟨false, false, ⟨0, 1.7, 0⟩, ⟨0, 0, -1⟩, 0.016, 1⟩ ⟨⟨60, 0, 60⟩, 0, 0, false⟩ =
      ⟨⟨⟨60, 0, 60⟩, 0, 0, false⟩, False, none, none⟩ :=
  ⟨C9_early_exit.1 _ _ (Or.inl rfl), C9_early_exit.2 _ _ rfl⟩

/-- Claim C9 counterexample: a tick with a jumpscare in progress on an
    active monster does mutate the monster state, so the claim that no
    monster state is mutated while a jumpscare is in progress is false. -/
theorem C9_scare_tick_mutates :
    (monsterTick ⟨true, true, ⟨0, 1.7, 0⟩, ⟨0, 0, -1⟩, 0.016, 1⟩
        ⟨⟨60, 0, 60⟩, 0, 0, false⟩).state.pos ≠ (⟨60, 0, 60⟩ : Vec3) := by
  intro h
  have hx := congrArg Vec3.x h
  simp [monsterTick] at hx

/-- Claim C3: the monster pursuit normalization is guarded against zero
    length, but the player collision resolver divides by the distance with
    no epsilon test, so a candidate position exactly at an obstacle centre
    produces a NaN position (modelled as none); at zero distance the
    guarded monster direction is the zero vector and contributes no
    movement. -/
theorem C3_zero_distance_guard :
    collidePass [⟨1, 0, 0.8⟩] (1, 0) = none ∧
    tjNormalize ⟨0, 0, 0⟩ = ⟨0, 0, 0⟩ ∧
    (monsterTick ⟨true, false, ⟨0, 1.7, 0⟩, ⟨0, 0, -1⟩, 0.016, 1⟩
        ⟨⟨0, 1.7, 0⟩, 0, 0, false⟩).state.pos = ⟨0, 1.7, 0⟩ := by
  refine ⟨?_, ?_, ?_⟩
  · simp only [collidePass, List.foldlM, collideStep]
    norm_num [PLAYER_RADIUS]
  · simp [tjNormalize]
  · simp [monsterTick, tjNormalize, vsub]

/-- The x component of the boundary commit. -/
lemma boundsCommit_x (prev : Vec3) (nx nz ny : ℝ) :
    (boundsCommit prev nx nz ny).x = if |nx| < WORLD_BOUNDARY then nx else prev.x := rfl

/-- The z component of the boundary commit. -/
lemma boundsCommit_z (prev : Vec3) (nx nz ny : ℝ) :
    (boundsCommit prev nx nz ny).z = if |nz| < WORLD_BOUNDARY then nz else prev.z := rfl

/-- The vertical coordinate is always committed. -/
lemma boundsCommit_y (prev : Vec3) (nx nz ny : ℝ) :
    (boundsCommit prev nx nz ny).y = ny := rfl

/-- The boundary commit preserves the horizontal bounds invariant. -/
lemma boundsCommit_inBounds (prev : Vec3) (nx nz ny : ℝ) (hp : inBounds prev) :
    inBounds (boundsCommit prev nx nz ny) := by
  constructor
  · rw [boundsCommit_x]
    split_ifs with h
    · exact h
    · exact hp.1
  · rw [boundsCommit_z]
    split_ifs with h
    · exact h
    · exact hp.2

/-- Any committed player tick preserves the horizontal bounds invariant. -/
lemma playerTick_inBounds (i : PlayerInput) (s : PlayerState) (out : PlayerTickOutput)
    (hs : inBounds s.pos) (h : playerTick i s = some out) : inBounds out.state.pos := by
  unfold playerTick at h
  by_cases hEx : (!i.active || i.isScaring) = true
  · rw [if_pos hEx] at h
    have hout := Option.some.inj h
    rw [← hout]
    exact hs
  · rw [if_neg hEx] at h
    simp only [Option.map_eq_some'] at h
    obtain ⟨c, hc, hf⟩ := h
    rw [← hf]
    exact boundsCommit_inBounds _ _ _ _ hs

/-- Any committed run of player ticks preserves the bounds invariant. -/
lemma playerRun_inBounds :
    ∀ (inputs : List PlayerInput) (s s' : PlayerState),
      inBounds s.pos → playerRun inputs s = some s' → inBounds s'.pos := by
  intro inputs
  induction inputs with
  | nil =>
      intro s s' hs h
      have hss : s = s' := by simpa [playerRun, List.foldlM] using h
      rw [← hss]
      exact hs
  | cons i rest ih =>
      intro s s' hs h
      unfold playerRun at h
      rw [List.foldlM_cons] at h
      cases hm : playerTick i s with
      | none => rw [hm] at h; simp at h
      | some out =>
          rw [hm] at h
          simp only [Option.map_some', Option.some_bind] at h
          exact ih out.state s' (playerTick_inBounds i s out hs hm) h

/-- Claim C1: from a position inside the world bounds, the per-axis
    boundary check commits a candidate axis value exactly when its absolute
    value is below 98.5 and otherwise holds that axis at its previous
    value, the vertical coordinate is always committed, and therefore every
    committed player tick, and every committed run of ticks, keeps the
    horizontal position strictly inside the bounds on both axes. -/
theorem C1_world_bounds :
    (∀ (prev : Vec3) (nx nz ny : ℝ), inBounds prev →
        inBounds (boundsCommit prev nx nz ny) ∧
        (boundsCommit prev nx nz ny).y = ny ∧
        (|nx| < WORLD_BOUNDARY → (boundsCommit prev nx nz ny).x = nx) ∧
        (¬ |nx| < WORLD_BOUNDARY → (boundsCommit prev nx nz ny).x = prev.x) ∧
        (|nz| < WORLD_BOUNDARY → (boundsCommit prev nx nz ny).z = nz) ∧
        (¬ |nz| < WORLD_BOUNDARY → (boundsCommit prev nx nz ny).z = prev.z)) ∧
    (∀ (i : PlayerInput) (s : PlayerState) (out : PlayerTickOutput),
        inBounds s.pos → playerTick i s = some out → inBounds out.state.pos) ∧
    (∀ (inputs : List PlayerInput) (s s' : PlayerState),
        inBounds s.pos → playerRun inputs s = some s' → inBounds s'.pos) := by
  refine ⟨?_, playerTick_inBounds, playerRun_inBounds⟩
  intro prev nx nz ny hp
  refine ⟨boundsCommit_inBounds prev nx nz ny hp, boundsCommit_y prev nx nz ny, ?_, ?_, ?_, ?_⟩
  · intro h; rw [boundsCommit_x, if_pos h]
  · intro h; rw [boundsCommit_x, if_neg h]
  · intro h; rw [boundsCommit_z, if_pos h]
  · intro h; rw [boundsCommit_z, if_neg h]

theorem C1_world_bounds_witness :
    inBounds ⟨0, 1.7, 0⟩ ∧ ¬ |(99 : ℝ)| < WORLD_BOUNDARY ∧
    (boundsCommit ⟨0, 1.7, 0⟩ 99 5 1.7).x = (⟨0, 1.7, 0⟩ : Vec3).x ∧
    (boundsCommit ⟨0, 1.7, 0⟩ 99 5 1.7).z = 5 ∧
    inBounds (boundsCommit ⟨0, 1.7, 0⟩ 99 5 1.7) ∧
    playerTick ⟨false, false, ⟨false, false, false, false, false⟩, 0, 0.016, 1, false, []⟩
        ⟨⟨0, 1.7, 0⟩, ⟨0, 0, 0⟩, 0, true, 0⟩ =
      some ⟨⟨⟨0, 1.7, 0⟩, ⟨0, 0, 0⟩, 0, true, 0⟩, none, False⟩ ∧
    inBounds (⟨⟨⟨0, 1.7, 0⟩, ⟨0, 0, 0⟩, 0, true, 0⟩, none, False⟩ : PlayerTickOutput).state.pos ∧
    playerRun [⟨false, false, ⟨false, false, false, false, false⟩, 0, 0.016, 1, false, []⟩]
        ⟨⟨0, 1.7, 0⟩, ⟨0, 0, 0⟩, 0, true, 0⟩ =
      some ⟨⟨0, 1.7, 0⟩, ⟨0, 0, 0⟩, 0, true, 0⟩ ∧
    inBounds (⟨⟨0, 1.7, 0⟩, ⟨0, 0, 0⟩, 0, true, 0⟩ : PlayerState).pos := by
  have hin : inBounds ⟨0, 1.7, 0⟩ := by
    constructor <;> simp [WORLD_BOUNDARY] <;> norm_num
  have hnx : ¬ |(99 : ℝ)| < WORLD_BOUNDARY := by
    simp [WORLD_BOUNDARY]
    norm_num
  have hnz : |(5 : ℝ)| < WORLD_BOUNDARY := by
    simp [WORLD_BOUNDARY]
    norm_num
  have h := C1_world_bounds.1 ⟨0, 1.7, 0⟩ 99 5 1.7 hin
  have htick : playerTick ⟨false, false, ⟨false, false, false, false, false⟩, 0, 0.016, 1, false, []⟩
      ⟨⟨0, 1.7, 0⟩, ⟨0, 0, 0⟩, 0, true, 0⟩ =
      some ⟨⟨⟨0, 1.7, 0⟩, ⟨0, 0, 0⟩, 0, true, 0⟩, none, False⟩ := by
    simp [playerTick]
  have hrun : playerRun [⟨false, false, ⟨false, false, false, false, false⟩, 0, 0.016, 1, false, []⟩]
      ⟨⟨0, 1.7, 0⟩, ⟨0, 0, 0⟩, 0, true, 0⟩ =
      some ⟨⟨0, 1.7, 0⟩, ⟨0, 0, 0⟩, 0, true, 0⟩ := by
    simp [playerRun, playerTick, List.foldlM]
  exact ⟨hin, hnx, h.2.2.2.1 hnx, h.2.2.2.2.1 hnz, h.1, htick,
    C1_world_bounds.2.1 _ _ _ hin htick, hrun, C1_world_bounds.2.2 _ _ _ hin hrun⟩

/-- A successful collision step leaves the position at distance at least
    the combined radius from the obstacle it just processed. -/
lemma collideStep_dist (q p' : ℝ × ℝ) (o : Obstacle) (h : collideStep q o = some p') :
    PLAYER_RADIUS + o.radius ≤ obstacleDist p' o := by
  unfold collideStep at h
  set dx := q.1 - o.px with hdx
  set dz := q.2 - o.pz with hdz
  set comb := PLAYER_RADIUS + o.radius with hcomb
  simp only [] at h
  by_cases h1 : dx * dx + dz * dz < comb * comb
  · rw [if_pos h1] at h
    by_cases h0 : dx * dx + dz * dz = 0
    · rw [if_pos h0] at h
      exact absurd h (by simp)
    · rw [if_neg h0] at h
      have hS : 0 < dx * dx + dz * dz :=
        lt_of_le_of_ne (add_nonneg (mul_self_nonneg dx) (mul_self_nonneg dz)) (Ne.symm h0)
      have hdpos : 0 < Real.sqrt (dx * dx + dz * dz) := Real.sqrt_pos.mpr hS
      set dist := Real.sqrt (dx * dx + dz * dz) with hdist
      have hp' : p' = (q.1 + dx / dist * (comb - dist), q.2 + dz / dist * (comb - dist)) :=
        (Option.some.inj h).symm
      have habs : obstacleDist p' o = |comb| := by
        unfold obstacleDist
        rw [hp']
        have hx : q.1 + dx / dist * (comb - dist) - o.px = dx * (comb / dist) := by
          rw [hdx]
          field_simp
          ring
        have hz2 : q.2 + dz / dist * (comb - dist) - o.pz = dz * (comb / dist) := by
          rw [hdz]
          field_simp
          ring
        rw [hx, hz2,
            show (dx * (comb / dist)) ^ 2 + (dz * (comb / dist)) ^ 2
              = (comb / dist) ^ 2 * (dx * dx + dz * dz) from by ring,
            Real.sqrt_mul (sq_nonneg _), Real.sqrt_sq_eq_abs, ← hdist, abs_div,
            abs_of_pos hdpos, div_mul_cancel₀]
        exact ne_of_gt hdpos
      rw [habs]
      exact le_abs_self comb
  · rw [if_neg h1] at h
    have hp' : p' = q := (Option.some.inj h).symm
    subst hp'
    push_neg at h1
    rcases le_or_lt comb 0 with hc | hc
    · exact le_trans hc (Real.sqrt_nonneg _)
    · calc comb = Real.sqrt (comb ^ 2) := (Real.sqrt_sq hc.le).symm
        _ ≤ obstacleDist p' o := by
            unfold obstacleDist
            apply Real.sqrt_le_sqrt
            rw [← hdx, ← hdz]
            nlinarith [h1]

/-- A committed collision pass over a list ending in an obstacle factors
    through a successful step on that final obstacle. -/
lemma collidePass_append_last (pre : List Obstacle) (o : Obstacle) :
    ∀ (p p' : ℝ × ℝ), collidePass (pre ++ [o]) p = some p' →
      ∃ q, collideStep q o = some p' := by
  induction pre with
  | nil =>
      intro p p' h
      refine ⟨p, ?_⟩
      simpa [collidePass, List.foldlM] using h
  | cons a rest ih =>
      intro p p' h
      unfold collidePass at h
      rw [List.cons_append, List.foldlM_cons] at h
      cases hq : collideStep p a with
      | none => rw [hq] at h; simp at h
      | some q =>
          rw [hq] at h
          exact ih q p' h

/-- Claim C2 amended: after the single sequential collision pass the
    separation guarantee holds for the final obstacle of the list: any
    committed pass leaves the position at distance at least 0.6 plus that
    obstacle's radius from it.  For earlier obstacles the bound can fail by
    far more than a numerical tolerance, which the counterexample shows. -/
theorem C2_last_obstacle_separation :
    ∀ (pre : List Obstacle) (o : Obstacle) (p p' : ℝ × ℝ),
      collidePass (pre ++ [o]) p = some p' →
      PLAYER_RADIUS + o.radius ≤ obstacleDist p' o := by
  intro pre o p p' h
  obtain ⟨q, hq⟩ := collidePass_append_last pre o p p' h
  exact collideStep_dist q p' o hq

/-- Claim C2 counterexample: with an obstacle of radius 1 at the origin and
    another at x equal 3, the candidate position x equal 1.7 is pushed by
    the second obstacle back into the first: the final distance to the
    first obstacle is 1.4, violating the combined radius 1.6 by 0.2, which
    exceeds any small numerical tolerance. -/
theorem C2_pass_reenters_earlier_obstacle :
    collidePass [⟨0, 0, 1⟩, ⟨3, 0, 1⟩] (1.7, 0) = some (1.4, 0) ∧
    obstacleDist (1.4, 0) ⟨0, 0, 1⟩ + 0.1 < PLAYER_RADIUS + (1 : ℝ) := by
  constructor
  · show List.foldlM collideStep ((1.7 : ℝ), (0 : ℝ)) [⟨0, 0, 1⟩, ⟨3, 0, 1⟩] = some (1.4, 0)
    rw [List.foldlM_cons]
    have hstep1 : collideStep ((1.7 : ℝ), (0 : ℝ)) ⟨0, 0, 1⟩ = some (1.7, 0) := by
      simp only [collideStep]
      rw [if_neg (by norm_num [PLAYER_RADIUS])]
    rw [hstep1]
    show List.foldlM collideStep ((1.7 : ℝ), (0 : ℝ)) [⟨3, 0, 1⟩] = some (1.4, 0)
    rw [List.foldlM_cons]
    have h169 : Real.sqrt (((1.7 : ℝ) - 3) * ((1.7 : ℝ) - 3) + ((0 : ℝ) - 0) * ((0 : ℝ) - 0))
        = 1.3 := sqrt_eval (by norm_num) (by norm_num)
    have hstep2 : collideStep ((1.7 : ℝ), (0 : ℝ)) ⟨3, 0, 1⟩ = some (1.4, 0) := by
      simp only [collideStep]
      rw [if_pos (by norm_num [PLAYER_RADIUS]), if_neg (by norm_num), h169]
      norm_num [PLAYER_RADIUS]
    rw [hstep2]
    rfl
  · have h196 : obstacleDist (1.4, 0) ⟨0, 0, 1⟩ = 1.4 := by
      unfold obstacleDist
      exact sqrt_eval (by norm_num) (by norm_num)
    rw [h196]
    norm_num [PLAYER_RADIUS]

theorem C2_last_obstacle_separation_witness :
    collidePass ([] ++ [⟨0, 0, 1⟩]) (1, 0) = some (1.6, 0) ∧
    PLAYER_RADIUS + (⟨0, 0, 1⟩ : Obstacle).radius ≤ obstacleDist (1.6, 0) ⟨0, 0, 1⟩ := by
  have h : collidePass ([] ++ [(⟨0, 0, 1⟩ : Obstacle)]) ((1 : ℝ), (0 : ℝ)) = some (1.6, 0) := by
    show List.foldlM collideStep ((1 : ℝ), (0 : ℝ)) [⟨0, 0, 1⟩] = some (1.6, 0)
    rw [List.foldlM_cons]
    have h1 : Real.sqrt (((1 : ℝ) - 0) * ((1 : ℝ) - 0) + ((0 : ℝ) - 0) * ((0 : ℝ) - 0)) = 1 :=
      sqrt_eval (by norm_num) (by norm_num)
    have hstep : collideStep ((1 : ℝ), (0 : ℝ)) ⟨0, 0, 1⟩ = some (1.6, 0) := by
      simp only [collideStep]
      rw [if_pos (by norm_num [PLAYER_RADIUS]), if_neg (by norm_num), h1]
      norm_num [PLAYER_RADIUS]
    rw [hstep]
    rfl
  exact ⟨h, C2_last_obstacle_separation [] ⟨0, 0, 1⟩ (1, 0) (1.6, 0) h⟩

/-- The x coordinate after a pursuing monster tick. -/
lemma monsterTick_pursue_x (i : MonsterInput) (s : MonsterState)
    (hA : i.active = true) (hS : i.isScaring = false) :
    (monsterTick i s).state.pos.x =
      s.pos.x + (tjNormalize (vsub i.playerPos s.pos)).x *
        speedOf (dist3 s.pos i.playerPos) * i.delta := by
  simp [monsterTick, hA, hS]

/-- The y coordinate is unchanged by a pursuing monster tick. -/
lemma monsterTick_pursue_y (i : MonsterInput) (s : MonsterState)
    (hA : i.active = true) (hS : i.isScaring = false) :
    (monsterTick i s).state.pos.y = s.pos.y := by
  simp [monsterTick, hA, hS]

/-- The z coordinate after a pursuing monster tick. -/
lemma monsterTick_pursue_z (i : MonsterInput) (s : MonsterState)
    (hA : i.active = true) (hS : i.isScaring = false) :
    (monsterTick i s).state.pos.z =
      s.pos.z + (tjNormalize (vsub i.playerPos s.pos)).z *
        speedOf (dist3 s.pos i.playerPos) * i.delta := by
  simp [monsterTick, hA, hS]

/-- Unfolding equation of the distance. -/
lemma dist3_def (a b : Vec3) :
    dist3 a b = Real.sqrt ((a.x - b.x) ^ 2 + (a.y - b.y) ^ 2 + (a.z - b.z) ^ 2) := rfl

/-- The distance to the player equals the length used by the direction
    normalization. -/
lemma dist3_eq_len (m p : Vec3) :
    dist3 m p = Real.sqrt ((p.x - m.x) ^ 2 + (p.y - m.y) ^ 2 + (p.z - m.z) ^ 2) := by
  unfold dist3
  congr 1
  ring

/-- The horizontal distance written from the player side. -/
lemma horizDist_eq (m p : Vec3) :
    horizDist m p = Real.sqrt ((p.x - m.x) ^ 2 + (p.z - m.z) ^ 2) := by
  unfold horizDist
  congr 1
  ring

/-- The x component of the normalized direction away from zero length. -/
lemma tjNormalize_vsub_x (p m : Vec3)
    (h : Real.sqrt ((p.x - m.x) ^ 2 + (p.y - m.y) ^ 2 + (p.z - m.z) ^ 2) ≠ 0) :
    (tjNormalize (vsub p m)).x = (p.x - m.x) /
      Real.sqrt ((p.x - m.x) ^ 2 + (p.y - m.y) ^ 2 + (p.z - m.z) ^ 2) := by
  simp only [tjNormalize, vsub]
  rw [if_neg h]

/-- The z component of the normalized direction away from zero length. -/
lemma tjNormalize_vsub_z (p m : Vec3)
    (h : Real.sqrt ((p.x - m.x) ^ 2 + (p.y - m.y) ^ 2 + (p.z - m.z) ^ 2) ≠ 0) :
    (tjNormalize (vsub p m)).z = (p.z - m.z) /
      Real.sqrt ((p.x - m.x) ^ 2 + (p.y - m.y) ^ 2 + (p.z - m.z) ^ 2) := by
  simp only [tjNormalize, vsub]
  rw [if_neg h]

/-- Magnitude of one horizontal pursuit displacement: the speed times the
    tick delta, scaled by the ratio of horizontal distance to full
    distance. -/
lemma step_displacement (mx mz A C L spd δ : ℝ) (hL : 0 < L) (hsd : 0 ≤ spd * δ) :
    Real.sqrt ((mx + A / L * spd * δ - mx) ^ 2 + (mz + C / L * spd * δ - mz) ^ 2)
      = spd * δ * (Real.sqrt (A ^ 2 + C ^ 2) / L) := by
  rw [show (mx + A / L * spd * δ - mx) ^ 2 + (mz + C / L * spd * δ - mz) ^ 2
        = (spd * δ / L) ^ 2 * (A ^ 2 + C ^ 2) from by ring,
      Real.sqrt_mul (sq_nonneg _), Real.sqrt_sq_eq_abs,
      abs_of_nonneg (div_nonneg hsd hL.le)]
  ring

/-- One pursuit step strictly decreases the distance to the player when the
    horizontal separation is positive and the step does not overshoot. -/
lemma step_decrease (mx my mz px py pz spd δ : ℝ)
    (hAC : 0 < (px - mx) ^ 2 + (pz - mz) ^ 2)
    (hsd : 0 < spd * δ)
    (hlt : spd * δ < Real.sqrt ((px - mx) ^ 2 + (py - my) ^ 2 + (pz - mz) ^ 2)) :
    Real.sqrt
        ((mx + (px - mx) / Real.sqrt ((px - mx) ^ 2 + (py - my) ^ 2 + (pz - mz) ^ 2)
            * spd * δ - px) ^ 2 +
         (my - py) ^ 2 +
         (mz + (pz - mz) / Real.sqrt ((px - mx) ^ 2 + (py - my) ^ 2 + (pz - mz) ^ 2)
            * spd * δ - pz) ^ 2)
      < Real.sqrt ((px - mx) ^ 2 + (py - my) ^ 2 + (pz - mz) ^ 2) := by
  set A := px - mx with hA
  set B := py - my with hB
  set C := pz - mz with hC
  set L := Real.sqrt (A ^ 2 + B ^ 2 + C ^ 2) with hLdef
  have hS : (0:ℝ) ≤ A ^ 2 + B ^ 2 + C ^ 2 := by positivity
  have hLpos : 0 < L := lt_trans hsd hlt
  have hL2 : L ^ 2 = A ^ 2 + B ^ 2 + C ^ 2 := Real.sq_sqrt hS
  have hLne : L ≠ 0 := ne_of_gt hLpos
  have hE : (mx + A / L * spd * δ - px) ^ 2 + (my - py) ^ 2 + (mz + C / L * spd * δ - pz) ^ 2
      = (1 - spd * δ / L) ^ 2 * (A ^ 2 + C ^ 2) + B ^ 2 := by
    rw [hA, hB, hC]
    field_simp
    ring
  have hc0 : 0 < spd * δ / L := div_pos hsd hLpos
  have hc1 : spd * δ / L < 1 := (div_lt_one hLpos).mpr hlt
  have h1c : (1 - spd * δ / L) ^ 2 < 1 := by nlinarith
  have hlt2 : (1 - spd * δ / L) ^ 2 * (A ^ 2 + C ^ 2) + B ^ 2 < L ^ 2 := by
    have hmul : (1 - spd * δ / L) ^ 2 * (A ^ 2 + C ^ 2) < 1 * (A ^ 2 + C ^ 2) :=
      mul_lt_mul_of_pos_right h1c hAC
    rw [hL2]
    nlinarith [hmul]
  calc Real.sqrt ((mx + A / L * spd * δ - px) ^ 2 + (my - py) ^ 2 +
          (mz + C / L * spd * δ - pz) ^ 2)
      = Real.sqrt ((1 - spd * δ / L) ^ 2 * (A ^ 2 + C ^ 2) + B ^ 2) := by rw [hE]
    _ < Real.sqrt (L ^ 2) := Real.sqrt_lt_sqrt (by positivity) hlt2
    _ = L := Real.sqrt_sq hLpos.le

/-- Claim C7 amended: each pursuing tick uses the 6.8 tier strictly below
    distance 14 and the 4.6 tier otherwise, translates the monster by the
    normalized direction times speed times delta on the horizontal axes
    only with the height unchanged; the per-tick displacement magnitude is
    speed times delta times the ratio of horizontal to full distance, equal
    to speed times delta only when monster and player share a height, and
    the distance to the player strictly decreases whenever the horizontal
    separation is positive and the step does not overshoot. -/
theorem C7_pursuit_kinematics :
    ∀ (i : MonsterInput) (s : MonsterState), i.active = true → i.isScaring = false →
      ((dist3 s.pos i.playerPos < 14 → speedOf (dist3 s.pos i.playerPos) = 6.8) ∧
       (14 ≤ dist3 s.pos i.playerPos → speedOf (dist3 s.pos i.playerPos) = 4.6)) ∧
      ((monsterTick i s).state.pos.y = s.pos.y ∧
       (monsterTick i s).state.pos.x = s.pos.x +
          (tjNormalize (vsub i.playerPos s.pos)).x * speedOf (dist3 s.pos i.playerPos) * i.delta ∧
       (monsterTick i s).state.pos.z = s.pos.z +
          (tjNormalize (vsub i.playerPos s.pos)).z * speedOf (dist3 s.pos i.playerPos) * i.delta) ∧
      (0 ≤ i.delta → 0 < dist3 s.pos i.playerPos →
          Real.sqrt (((monsterTick i s).state.pos.x - s.pos.x) ^ 2 +
              ((monsterTick i s).state.pos.z - s.pos.z) ^ 2) =
            speedOf (dist3 s.pos i.playerPos) * i.delta *
              (horizDist s.pos i.playerPos / dist3 s.pos i.playerPos)) ∧
      (0 < i.delta → 0 < horizDist s.pos i.playerPos →
          speedOf (dist3 s.pos i.playerPos) * i.delta < dist3 s.pos i.playerPos →
          dist3 (monsterTick i s).state.pos i.playerPos < dist3 s.pos i.playerPos) := by
  intro i s hA hS
  have hdl := dist3_eq_len s.pos i.playerPos
  refine ⟨⟨?_, ?_⟩, ⟨monsterTick_pursue_y i s hA hS, monsterTick_pursue_x i s hA hS,
      monsterTick_pursue_z i s hA hS⟩, ?_, ?_⟩
  · intro h
    simp only [speedOf, ATTACK_RANGE, CHASE_SPEED]
    rw [if_pos h]
  · intro h
    simp only [speedOf, ATTACK_RANGE, BASE_SPEED]
    rw [if_neg (not_lt.mpr h)]
  · intro hδ hd
    have hLpos : 0 < Real.sqrt ((i.playerPos.x - s.pos.x) ^ 2 + (i.playerPos.y - s.pos.y) ^ 2 +
        (i.playerPos.z - s.pos.z) ^ 2) := by
      rw [← hdl]; exact hd
    have hLne := ne_of_gt hLpos
    have hx := monsterTick_pursue_x i s hA hS
    have hz := monsterTick_pursue_z i s hA hS
    rw [tjNormalize_vsub_x _ _ hLne] at hx
    rw [tjNormalize_vsub_z _ _ hLne] at hz
    rw [hx, hz,
        step_displacement s.pos.x s.pos.z (i.playerPos.x - s.pos.x) (i.playerPos.z - s.pos.z)
          _ _ _ hLpos (mul_nonneg (speedOf_pos _).le hδ),
        horizDist_eq, hdl]
  · intro hδ hh hlt
    have hLpos : 0 < Real.sqrt ((i.playerPos.x - s.pos.x) ^ 2 + (i.playerPos.y - s.pos.y) ^ 2 +
        (i.playerPos.z - s.pos.z) ^ 2) := by
      rw [← hdl]
      exact lt_trans (mul_pos (speedOf_pos _) hδ) hlt
    have hLne := ne_of_gt hLpos
    have hx := monsterTick_pursue_x i s hA hS
    have hy := monsterTick_pursue_y i s hA hS
    have hz := monsterTick_pursue_z i s hA hS
    rw [tjNormalize_vsub_x _ _ hLne] at hx
    rw [tjNormalize_vsub_z _ _ hLne] at hz
    have hAC : 0 < (i.playerPos.x - s.pos.x) ^ 2 + (i.playerPos.z - s.pos.z) ^ 2 := by
      rw [horizDist_eq] at hh
      exact Real.sqrt_pos.mp hh
    have hsd : 0 < speedOf (dist3 s.pos i.playerPos) * i.delta :=
      mul_pos (speedOf_pos _) hδ
    have hlt' : speedOf (dist3 s.pos i.playerPos) * i.delta <
        Real.sqrt ((i.playerPos.x - s.pos.x) ^ 2 + (i.playerPos.y - s.pos.y) ^ 2 +
          (i.playerPos.z - s.pos.z) ^ 2) := by
      rw [← hdl]; exact hlt
    rw [dist3_def (monsterTick i s).state.pos i.playerPos, hx, hy, hz]
    conv_rhs => rw [hdl]
    exact step_decrease s.pos.x s.pos.y s.pos.z i.playerPos.x i.playerPos.y i.playerPos.z
      _ _ hAC hsd hlt'

/-- Claim C7 counterexample: with the player at height 1.7 and the monster
    at horizontal distance 14.4 (full distance 14.5, in the 4.6 tier), the
    per-tick displacement magnitude is 4.6 times 0.016 times 14.4 over
    14.5, which differs from the claimed 4.6 times 0.016: the normalized
    direction is three-dimensional but only its horizontal components are
    applied. -/
theorem C7_displacement_counterexample :
    dist3 (⟨14.4, 0, 0⟩ : Vec3) ⟨0, 1.7, 0⟩ = 14.5 ∧
    ¬ dist3 (⟨14.4, 0, 0⟩ : Vec3) ⟨0, 1.7, 0⟩ < 14 ∧
    Real.sqrt
        (((monsterTick ⟨true, false, ⟨0, 1.7, 0⟩, ⟨0, 0, -1⟩, 0.016, 1⟩
              ⟨⟨14.4, 0, 0⟩, 0, 0, false⟩).state.pos.x - 14.4) ^ 2 +
         ((monsterTick ⟨true, false, ⟨0, 1.7, 0⟩, ⟨0, 0, -1⟩, 0.016, 1⟩
              ⟨⟨14.4, 0, 0⟩, 0, 0, false⟩).state.pos.z - 0) ^ 2)
      ≠ 4.6 * 0.016 := by
  have hd : dist3 (⟨14.4, 0, 0⟩ : Vec3) ⟨0, 1.7, 0⟩ = 14.5 := by
    rw [dist3_def]
    exact sqrt_eval (by norm_num) (by norm_num)
  have hspd : speedOf (dist3 (⟨14.4, 0, 0⟩ : Vec3) ⟨0, 1.7, 0⟩) = 4.6 := by
    rw [hd]
    simp only [speedOf, ATTACK_RANGE, BASE_SPEED]
    rw [if_neg (by norm_num)]
  refine ⟨hd, by rw [hd]; norm_num, ?_⟩
  have hx := monsterTick_pursue_x ⟨true, false, ⟨0, 1.7, 0⟩, ⟨0, 0, -1⟩, 0.016, 1⟩
      ⟨⟨14.4, 0, 0⟩, 0, 0, false⟩ rfl rfl
  have hz := monsterTick_pursue_z ⟨true, false, ⟨0, 1.7, 0⟩, ⟨0, 0, -1⟩, 0.016, 1⟩
      ⟨⟨14.4, 0, 0⟩, 0, 0, false⟩ rfl rfl
  dsimp only at hx hz
  rw [tjNormalize_vsub_x ⟨0, 1.7, 0⟩ ⟨14.4, 0, 0⟩
      (by rw [Real.sqrt_ne_zero']; norm_num)] at hx
  rw [tjNormalize_vsub_z ⟨0, 1.7, 0⟩ ⟨14.4, 0, 0⟩
      (by rw [Real.sqrt_ne_zero']; norm_num)] at hz
  dsimp only at hx hz
  have hsq : Real.sqrt (((0 : ℝ) - 14.4) ^ 2 + ((1.7 : ℝ) - 0) ^ 2 + ((0 : ℝ) - 0) ^ 2)
      = 14.5 := sqrt_eval (by norm_num) (by norm_num)
  rw [hsq, hspd] at hx hz
  rw [hx, hz]
  intro hEq
  have hsq2 := congrArg (fun t : ℝ => t ^ 2) hEq
  dsimp only at hsq2
  rw [Real.sq_sqrt (by positivity)] at hsq2
  norm_num at hsq2

theorem C7_pursuit_kinematics_witness :
    (14 : ℝ) ≤ dist3 ⟨14.4, 0, 0⟩ ⟨0, 1.7, 0⟩ ∧
    speedOf (dist3 (⟨14.4, 0, 0⟩ : Vec3) ⟨0, 1.7, 0⟩) = 4.6 ∧
    (0 : ℝ) < horizDist ⟨14.4, 0, 0⟩ ⟨0, 1.7, 0⟩ ∧
    speedOf (dist3 (⟨14.4, 0, 0⟩ : Vec3) ⟨0, 1.7, 0⟩) * (0.016 : ℝ) <
      dist3 ⟨14.4, 0, 0⟩ ⟨0, 1.7, 0⟩ ∧
    dist3 (monsterTick ⟨true, false, ⟨0, 1.7, 0⟩, ⟨0, 0, -1⟩, 0.016, 1⟩
        ⟨⟨14.4, 0, 0⟩, 0, 0, false⟩).state.pos ⟨0, 1.7, 0⟩ <
      dist3 ⟨14.4, 0, 0⟩ ⟨0, 1.7, 0⟩ := by
  have hd : dist3 (⟨14.4, 0, 0⟩ : Vec3) ⟨0, 1.7, 0⟩ = 14.5 := by
    rw [dist3_def]
    exact sqrt_eval (by norm_num) (by norm_num)
  have h14 : (14 : ℝ) ≤ dist3 ⟨14.4, 0, 0⟩ ⟨0, 1.7, 0⟩ := by rw [hd]; norm_num
  have hspd : speedOf (dist3 (⟨14.4, 0, 0⟩ : Vec3) ⟨0, 1.7, 0⟩) = 4.6 := by
    rw [hd]
    simp only [speedOf, ATTACK_RANGE, BASE_SPEED]
    rw [if_neg (by norm_num)]
  have hh : (0 : ℝ) < horizDist ⟨14.4, 0, 0⟩ ⟨0, 1.7, 0⟩ := by
    unfold horizDist
    exact Real.sqrt_pos.mpr (by norm_num)
  have hlt : speedOf (dist3 (⟨14.4, 0, 0⟩ : Vec3) ⟨0, 1.7, 0⟩) * (0.016 : ℝ) <
      dist3 ⟨14.4, 0, 0⟩ ⟨0, 1.7, 0⟩ := by
    rw [hspd, hd]
    norm_num
  have hC := C7_pursuit_kinematics ⟨true, false, ⟨0, 1.7, 0⟩, ⟨0, 0, -1⟩, 0.016, 1⟩
      ⟨⟨14.4, 0, 0⟩, 0, 0, false⟩ rfl rfl
  exact ⟨h14, hC.1.2 h14, hh, hlt, hC.2.2.2 (by norm_num) hh hlt⟩

end Slendy
